import Mathlib

/-!
Verification of the HKX analyzer (`analyze_hkx.py`).

A file's readable prefix is modelled as a `List Nat` of byte values
(each byte of a real file is `< 256`).  Strings are modelled as
`List Char`; Python's `bytes.decode("ascii", errors="replace")` is
modelled byte-by-byte (`decodeAsciiReplace`).  The parsed record
`HKXInfo` mirrors the Python class of the same name, and `parseData`
mirrors `HKXInfo._parse` applied to the bytes read from the file.
-/

namespace HKX

/-- Anchored comparison: `prefixAt data pat` is true when `pat` occurs at
the start of `data`.
(Models the anchored comparison step of Python's substring search.) -/
def prefixAt {α : Type} [DecidableEq α] : List α → List α → Bool
  | _, [] => true
  | [], _ :: _ => false
  | a :: as, b :: bs => if a = b then prefixAt as bs else false

/-- Substring test: `containsL pat data` is Python's `pat in data`. -/
def containsL {α : Type} [DecidableEq α] (pat : List α) : List α → Bool
  | [] => prefixAt ([] : List α) pat
  | a :: t => prefixAt (a :: t) pat || containsL pat t

/-- Leftmost-occurrence search: `findSub pat data` is Python's
`data.find(pat)` — index of the leftmost
occurrence, `none` for `-1`. -/
def findSub {α : Type} [DecidableEq α] (pat : List α) : List α → Option Nat
  | [] => if prefixAt ([] : List α) pat then some 0 else none
  | a :: t =>
    if prefixAt (a :: t) pat then some 0
    else (findSub pat t).map (fun i => i + 1)

/-- Index of the first occurrence of byte `b` in a list, if any. -/
def findByte (b : Nat) : List Nat → Option Nat
  | [] => none
  | a :: t => if a = b then some 0 else (findByte b t).map (fun i => i + 1)

/-- Python's `data.find(bytes([b]), start, stop)` : search for the single
byte `b` inside `data[start:stop]`, returning an absolute index. -/
def findByteFrom (data : List Nat) (b : Nat) (start stop : Nat) : Option Nat :=
  (findByte b ((data.drop start).take (stop - start))).map (fun i => i + start)

/-- Python's `bytes.decode("ascii", errors="replace")`: bytes below 128
decode to themselves, others to U+FFFD. -/
def decodeAsciiReplace (bs : List Nat) : List Char :=
  bs.map (fun b => if b < 128 then Char.ofNat b else Char.ofNat 0xFFFD)

/-- One uppercase hexadecimal digit. -/
def hexDigit (n : Nat) : Char :=
  if n < 10 then Char.ofNat (48 + n) else Char.ofNat (55 + n)

/-- Hexadecimal digits of `n`, most significant first (empty for 0).
Structural recursion over a fuel of 16 nibbles, enough for every value
below `2^64`; every 4-byte little-endian read of real bytes is `< 2^32`. -/
def hexDigits : Nat → Nat → List Char
  | 0, _ => []
  | fuel + 1, n => if n = 0 then [] else hexDigits fuel (n / 16) ++ [hexDigit (n % 16)]

/-- Python's `f"{n:08X}"`. -/
def toHexPad8 (n : Nat) : List Char :=
  let ds := hexDigits 16 n
  List.replicate (8 - ds.length) '0' ++ ds

/-- The `f"unknown (0x{version_candidate:08X})"` label. -/
def unknownLabel (v : Nat) : List Char :=
  "unknown (0x".toList ++ toHexPad8 v ++ ")".toList

/-- Byte at index `i` (`data[i]`; only evaluated in-bounds by the parser). -/
def getByte (data : List Nat) (i : Nat) : Nat := data.getD i 0

/-- Little-endian 4-byte read, `struct.unpack_from("<I", data, off)[0]`.
Only evaluated when `off + 4 ≤ data.length`, as in the source's guards. -/
def readU32 (data : List Nat) (off : Nat) : Nat :=
  getByte data off + 256 * getByte data (off + 1) +
    65536 * getByte data (off + 2) + 16777216 * getByte data (off + 3)

/-- Magic bytes `HKX_MAGIC_LE = b"\x57\xE0\xE0\x57\x10\xC0\xC0\x10"`. -/
def HKX_MAGIC_LE : List Nat := [0x57, 0xE0, 0xE0, 0x57, 0x10, 0xC0, 0xC0, 0x10]

/-- Known SDK version tags, `HAVOK_VERSIONS`. -/
def HAVOK_VERSIONS : List (Nat × List Char) :=
  [(0x0B000000, "hk2014 (Skyrim SE)".toList),
   (0x0D000000, "hk2016".toList),
   (0x0E000000, "hk2018 (Elden Ring / DS3)".toList),
   (0x10000000, "hk2020".toList)]

/-- Version-table lookup, `v in HAVOK_VERSIONS` / `HAVOK_VERSIONS[v]`. -/
def lookupVersion (v : Nat) : Option (List Char) :=
  (HAVOK_VERSIONS.find? (fun p => p.1 == v)).map Prod.snd

/-- Signature bytes `b"hkaAnimationContainer"`. -/
def animContainerSig : List Nat := "hkaAnimationContainer".toList.map Char.toNat

/-- Signature bytes `b"hkaSplineCompressedAnimation"`. -/
def splineSig : List Nat := "hkaSplineCompressedAnimation".toList.map Char.toNat

/-- Signature bytes `b"hkaInterleavedUncompressedAnimation"`. -/
def interleavedSig : List Nat :=
  "hkaInterleavedUncompressedAnimation".toList.map Char.toNat

/-- Signature bytes `b"hkaAnimationBinding"`. -/
def bindingSig : List Nat := "hkaAnimationBinding".toList.map Char.toNat

/-- Signature bytes `b"hkaSkeleton"`. -/
def skeletonSig : List Nat := "hkaSkeleton".toList.map Char.toNat

/-- Signature bytes `b"hkaSkeletonMapper"`. -/
def skeletonMapperSig : List Nat := "hkaSkeletonMapper".toList.map Char.toNat

/-- Signature bytes `b"hkRootLevelContainer"`. -/
def rootLevelSig : List Nat := "hkRootLevelContainer".toList.map Char.toNat

/-- Signature list `ER_CLASSNAME_SIGNATURES` — byte patterns, in the
source's order. -/
def ER_CLASSNAME_SIGNATURES : List (List Nat) :=
  [animContainerSig, splineSig, interleavedSig, bindingSig,
   skeletonSig, skeletonMapperSig, rootLevelSig]

/-- The record built by `HKXInfo.__init__` / `_parse` (the path / size
fields, irrelevant to parsing, are omitted). -/
structure HKXInfo where
  valid : Bool
  error : Option (List Char)
  endianness : List Char
  havok_version_raw : Nat
  havok_version_str : List Char
  user_tag : Nat
  num_sections : Nat
  content_version_string : List Char
  detected_classes : List (List Char)
  has_animation : Bool
  has_skeleton : Bool
  has_binding : Bool
  compression_type : List Char
  deriving DecidableEq, Repr

/-- Field defaults set in `HKXInfo.__init__`. -/
def initInfo : HKXInfo :=
  { valid := false
    error := none
    endianness := "unknown".toList
    havok_version_raw := 0
    havok_version_str := "unknown".toList
    user_tag := 0
    num_sections := 0
    content_version_string := []
    detected_classes := []
    has_animation := false
    has_skeleton := false
    has_binding := false
    compression_type := "unknown".toList }

/-- The per-signature body of `_scan_classes`: record the class name and
derive the content flags / compression type. -/
def classUpdate (info : HKXInfo) (name : List Char) : HKXInfo :=
  let base := { info with detected_classes := info.detected_classes ++ [name] }
  if containsL ("Animation".toList) name && !(containsL ("Container".toList) name) then
    let anim := { base with has_animation := true }
    if containsL ("Spline".toList) name then
      { anim with compression_type := "spline".toList }
    else if containsL ("Interleaved".toList) name then
      { anim with compression_type := "interleaved".toList }
    else anim
  else if containsL ("Skeleton".toList) name && !(containsL ("Mapper".toList) name) then
    { base with has_skeleton := true }
  else if containsL ("Binding".toList) name then
    { base with has_binding := true }
  else base

/-- One iteration of the `for sig in ER_CLASSNAME_SIGNATURES` loop. -/
def scanStep (data : List Nat) (acc : HKXInfo) (sig : List Nat) : HKXInfo :=
  if containsL sig data then classUpdate acc (decodeAsciiReplace sig) else acc

/-- Class scan, `HKXInfo._scan_classes`. -/
def scanClasses (data : List Nat) (info : HKXInfo) : HKXInfo :=
  ER_CLASSNAME_SIGNATURES.foldl (scanStep data) info

/-- The version-string markers scanned by `_scan_version_string`. -/
def VERSION_PATTERNS : List (List Nat) :=
  ["hk_".toList.map Char.toNat,
   "Havok-".toList.map Char.toNat,
   "hkVersionUtil".toList.map Char.toNat]

/-- The `for pattern in [...]` loop of `_scan_version_string`, with its
early `break` on the first marker followed by a NUL within 64 bytes. -/
def scanVersionLoop (data : List Nat) (info : HKXInfo) : List (List Nat) → HKXInfo
  | [] => info
  | pat :: rest =>
    match findSub pat data with
    | some idx =>
      match findByteFrom data 0 idx (idx + 64) with
      | some e =>
        if idx < e then
          { info with content_version_string :=
              decodeAsciiReplace ((data.drop idx).take (e - idx)) }
        else scanVersionLoop data info rest
      | none => scanVersionLoop data info rest
    | none => scanVersionLoop data info rest

/-- Version-string scan, `HKXInfo._scan_version_string`. -/
def scanVersionString (data : List Nat) (info : HKXInfo) : HKXInfo :=
  scanVersionLoop data info VERSION_PATTERNS

/-- The `for offset in [0x10, 0x14, 0x28, 0x2C]` probe loop of `_parse`,
taking the first offset whose little-endian word is a known version key. -/
def probeVersion (data : List Nat) (info : HKXInfo) : List Nat → HKXInfo
  | [] => info
  | off :: rest =>
    if off + 4 ≤ data.length then
      match lookupVersion (readU32 data off) with
      | some s =>
        { info with havok_version_raw := readU32 data off, havok_version_str := s }
      | none => probeVersion data info rest
    else probeVersion data info rest

/-- Version resolution in `_parse`: offset 0x0C first, then the probe
list, then the `unknown (0x…)` fallback when nothing resolved. -/
def resolveVersion (data : List Nat) (info : HKXInfo) : HKXInfo :=
  match lookupVersion (readU32 data 0x0C) with
  | some s =>
    { info with havok_version_raw := readU32 data 0x0C, havok_version_str := s }
  | none =>
    let probed := probeVersion data info [0x10, 0x14, 0x28, 0x2C]
    if probed.havok_version_raw = 0 then
      { probed with havok_version_str := unknownLabel (readU32 data 0x0C) }
    else probed

/-- The `for offset in [0x14, 0x18]` section-count loop of `_parse`. -/
def sectionLoop (data : List Nat) (info : HKXInfo) : List Nat → HKXInfo
  | [] => info
  | off :: rest =>
    if off + 4 ≤ data.length then
      if 0 < readU32 data off ∧ readU32 data off < 100 then
        { info with num_sections := readU32 data off }
      else sectionLoop data info rest
    else sectionLoop data info rest

/-- Marker bytes for the tagfile check of `_parse_alternative_header`. -/
def HK_LOWER : List Nat := "hk_".toList.map Char.toNat

/-- Marker bytes `b"HK_"`. -/
def HK_UPPER : List Nat := "HK_".toList.map Char.toNat

/-- Tagfile version-string extraction of `_parse_alternative_header`:
`end = data.find(b"\x00", 0, 64); if end > 0: …`. -/
def altVersionSet (data : List Nat) (info : HKXInfo) : HKXInfo :=
  match findByteFrom data 0 0 64 with
  | some e =>
    if 0 < e then
      let cvs := decodeAsciiReplace (data.take e)
      let info2 := { info with content_version_string := cvs }
      if containsL ("2018".toList) cvs then
        { info2 with havok_version_str := "hk2018 (Elden Ring / DS3)".toList }
      else if containsL ("2014".toList) cvs then
        { info2 with havok_version_str := "hk2014 (Skyrim SE)".toList }
      else if containsL ("2016".toList) cvs then
        { info2 with havok_version_str := "hk2016".toList }
      else info2
    else info
  | none => info

/-- Offsets visited by `range(0, min(256, len(data) - 8), 4)`. -/
def packOffsets (len : Nat) : List Nat :=
  (List.range ((min 256 (len - 8) + 3) / 4)).map (fun k => 4 * k)

/-- The packfile probe of `_parse_alternative_header`: the magic found at
some scanned 4-aligned offset. -/
def magicAtOffset (data : List Nat) : Bool :=
  (packOffsets data.length).any (fun off => (data.drop off).take 8 == HKX_MAGIC_LE)

/-- The `if not self.valid:` signature-only fallback of
`_parse_alternative_header`. -/
def altFallback (data : List Nat) (info1 : HKXInfo) : HKXInfo :=
  if !info1.valid then
    let i := scanClasses data info1
    if i.detected_classes ≠ [] then
      { i with valid := true,
               havok_version_str := "unknown (headerless, classes detected)".toList }
    else i
  else info1

/-- The final `if not self.valid:` error assignment of
`_parse_alternative_header`. -/
def altFinal (info2 : HKXInfo) : HKXInfo :=
  if !info2.valid then
    { info2 with error := some ("No valid HKX header or Havok class signatures found".toList) }
  else info2

/-- Alternative-header parsing, `HKXInfo._parse_alternative_header`. -/
def parseAlt (data : List Nat) (info : HKXInfo) : HKXInfo :=
  if data.take 3 = HK_LOWER ∨ data.take 3 = HK_UPPER then
    scanClasses data (altVersionSet data { info with valid := true })
  else
    altFinal (altFallback data
      (if magicAtOffset data then { info with valid := true } else info))

/-- The record state after the `self.valid = True`, user-tag and
endianness assignments of the standard-header path of `_parse`
(`endian_byte = data[0x11] if len(data) > 0x11 else 0`). -/
def standardHeaderInfo (data : List Nat) : HKXInfo :=
  { initInfo with
      valid := true
      user_tag := readU32 data 0x08
      endianness :=
        if (if 0x11 < data.length then getByte data 0x11 else 0) = 0 then
          "big".toList
        else "little".toList }

/-- The whole standard-header path of `_parse` after the magic matched:
user tag and endianness, version resolution, section count, version
string scan, class scan — in the source's order. -/
def standardTail (data : List Nat) : HKXInfo :=
  scanClasses data
    (scanVersionString data
      (sectionLoop data (resolveVersion data (standardHeaderInfo data)) [0x14, 0x18]))

/-- Whole-file parsing, `HKXInfo._parse`, applied to the bytes read from
the file (the source
reads at most 65536 bytes; `data` is that prefix). -/
def parseData (data : List Nat) : HKXInfo :=
  if data.length < 64 then
    { initInfo with error := some ("File too small to be a valid HKX".toList) }
  else if data.take 8 ≠ HKX_MAGIC_LE then
    parseAlt data initInfo
  else standardTail data

/-- The analysis of one file: `.error e` models the `except Exception`
branch of `_parse` (unreadable file, exception text `e`), `.ok data`
a successful bounded read. -/
def analyzeFile : Except (List Char) (List Nat) → HKXInfo
  | .error e => { initInfo with error := some ("Cannot read file: ".toList ++ e) }
  | .ok data => parseData data

/-- The issue message appended for invalid records. -/
def invalidIssue : List Char := "INVALID: File is not a valid HKX file".toList

/-- The version-mismatch issue message. -/
def versionIssue : List Char :=
  ("VERSION: Elden Ring uses Havok 2018, Skyrim SE uses Havok 2014. " ++
    "Conversion required via hkxcmd or HavokBehaviorPostProcess.").toList

/-- The spline-compression issue message. -/
def compressionIssue : List Char :=
  ("COMPRESSION: Spline-compressed animation data. " ++
    "Soulstruct or custom decompressor needed before retargeting.").toList

/-- The big-endian issue message. -/
def endianIssue : List Char :=
  ("ENDIAN: Big-endian format detected. Skyrim SE uses little-endian. " ++
    "Byte-swap conversion required.").toList

/-- The no-issue informational entry. -/
def okIssue : List Char :=
  "OK: No obvious compatibility issues detected (further testing needed)".toList

/-- Compatibility rules, `check_skyrim_compatibility`. -/
def check_skyrim_compatibility (info : HKXInfo) : List (List Char) :=
  if !info.valid then [invalidIssue]
  else
    let issues : List (List Char) := []
    let issues :=
      if containsL ("2018".toList) info.havok_version_str ||
          containsL ("Elden Ring".toList) info.havok_version_str then
        issues ++ [versionIssue]
      else issues
    let issues :=
      if info.compression_type = "spline".toList then issues ++ [compressionIssue]
      else issues
    let issues :=
      if info.endianness = "big".toList then issues ++ [endianIssue]
      else issues
    if issues = [] then [okIssue] else issues

/-- Frequency-table increment, `counts[key] = counts.get(key, 0) + 1`, on
an insertion-ordered
association list (dict keys are unique, so the first hit is the entry). -/
def bump (m : List (List Char × Nat)) (k : List Char) : List (List Char × Nat) :=
  match m with
  | [] => [(k, 1)]
  | (k2, v) :: rest => if k2 = k then (k2, v + 1) :: rest else (k2, v) :: bump rest k

/-- Sum of a frequency table's values. -/
def sumValues (m : List (List Char × Nat)) : Nat := (m.map Prod.snd).sum

/-- Valid-record count, `valid = sum(1 for r in results if r.valid)` in
`print_results`. -/
def validCount (rs : List HKXInfo) : Nat := (rs.filter (fun r => r.valid)).length

/-- Number of invalid records in a batch. -/
def invalidCount (rs : List HKXInfo) : Nat := (rs.filter (fun r => !r.valid)).length

/-- The `compression_counts` dict of `print_results`: every record
contributes its compression classification. -/
def compressionCounts (rs : List HKXInfo) : List (List Char × Nat) :=
  rs.foldl (fun m r => bump m r.compression_type) []

/-- The `version_counts` dict of `print_results`: only valid records
contribute their resolved version label. -/
def versionCounts (rs : List HKXInfo) : List (List Char × Nat) :=
  rs.foldl (fun m r => if r.valid then bump m r.havok_version_str else m) []

/-- Spec-side definition: `versionLabelSpec` follows the SPEC's words for
version resolution
(claim C7), to be compared with the source-derived `parseData`: take the
offset-0x0C candidate if it is a known key; otherwise the first known key
among the probe offsets 0x10, 0x14, 0x28, 0x2C; otherwise the
`unknown (0x…)` label formatted from the offset-0x0C value. -/
def versionLabelSpec (data : List Nat) : List Char :=
  match lookupVersion (readU32 data 0x0C) with
  | some s => s
  | none =>
    match ([0x10, 0x14, 0x28, 0x2C].filterMap
        (fun off => lookupVersion (readU32 data off))).head? with
    | some s => s
    | none => unknownLabel (readU32 data 0x0C)

/-- An 80-byte buffer: the magic followed by 72 zero bytes. -/
def magicBuf80 : List Nat := HKX_MAGIC_LE ++ List.replicate 72 0

/-- A 64-byte tagfile buffer: `b"hk_2018.1.0-r1\x00"` padded with zeros. -/
def hkBuf : List Nat := ("hk_2018.1.0-r1".toList.map Char.toNat) ++ List.replicate 50 0

/-- A 71-byte headerless buffer: a skeleton signature then 60 bytes of 1. -/
def headlessBuf : List Nat := skeletonSig ++ List.replicate 60 1

/-- The 63-byte concatenation of the spline and interleaved signatures. -/
def bothSigs63 : List Nat := splineSig ++ interleavedSig

/-- A 71-byte standard-header buffer containing both animation signatures. -/
def bothSigsMagic : List Nat := HKX_MAGIC_LE ++ splineSig ++ interleavedSig

/-- The error record produced when `_parse_alternative_header` finds
nothing at all. -/
def noHeaderInfo : HKXInfo :=
  { initInfo with
      error := some ("No valid HKX header or Havok class signatures found".toList) }

/-- The eight header-derived fields that the class scan never touches. -/
def hdr (i : HKXInfo) :
    Bool × Option (List Char) × List Char × Nat × List Char × Nat × Nat × List Char :=
  (i.valid, i.error, i.endianness, i.havok_version_raw, i.havok_version_str,
    i.user_tag, i.num_sections, i.content_version_string)

lemma classUpdate_hdr (i : HKXInfo) (n : List Char) : hdr (classUpdate i n) = hdr i := by
  unfold classUpdate hdr
  repeat first | split | rfl

lemma classUpdate_detected (i : HKXInfo) (n : List Char) :
    (classUpdate i n).detected_classes = i.detected_classes ++ [n] := by
  unfold classUpdate
  repeat first | split | rfl

lemma scanStep_hdr (data : List Nat) (i : HKXInfo) (s : List Nat) :
    hdr (scanStep data i s) = hdr i := by
  unfold scanStep
  split
  · exact classUpdate_hdr i (decodeAsciiReplace s)
  · rfl

lemma scanFold_hdr (data : List Nat) :
    ∀ (sigs : List (List Nat)) (i : HKXInfo),
      hdr (List.foldl (scanStep data) i sigs) = hdr i := by
  intro sigs
  induction sigs with
  | nil => intro i; rfl
  | cons s rest ih =>
    intro i
    rw [List.foldl_cons]
    exact (ih (scanStep data i s)).trans (scanStep_hdr data i s)

lemma scanClasses_hdr (data : List Nat) (i : HKXInfo) :
    hdr (scanClasses data i) = hdr i :=
  scanFold_hdr data ER_CLASSNAME_SIGNATURES i

lemma hdr_valid {a b : HKXInfo} (h : hdr a = hdr b) : a.valid = b.valid :=
  congrArg Prod.fst h

lemma hdr_error {a b : HKXInfo} (h : hdr a = hdr b) : a.error = b.error :=
  congrArg (fun p => p.2.1) h

lemma hdr_endianness {a b : HKXInfo} (h : hdr a = hdr b) : a.endianness = b.endianness :=
  congrArg (fun p => p.2.2.1) h

lemma hdr_raw {a b : HKXInfo} (h : hdr a = hdr b) :
    a.havok_version_raw = b.havok_version_raw :=
  congrArg (fun p => p.2.2.2.1) h

lemma hdr_str {a b : HKXInfo} (h : hdr a = hdr b) :
    a.havok_version_str = b.havok_version_str :=
  congrArg (fun p => p.2.2.2.2.1) h

lemma hdr_num_sections {a b : HKXInfo} (h : hdr a = hdr b) :
    a.num_sections = b.num_sections :=
  congrArg (fun p => p.2.2.2.2.2.2.1) h

lemma hdr_cvs {a b : HKXInfo} (h : hdr a = hdr b) :
    a.content_version_string = b.content_version_string :=
  congrArg (fun p => p.2.2.2.2.2.2.2) h

lemma scanVersionLoop_pres (data : List Nat) :
    ∀ (pats : List (List Nat)) (i : HKXInfo),
      (scanVersionLoop data i pats).valid = i.valid ∧
      (scanVersionLoop data i pats).endianness = i.endianness ∧
      (scanVersionLoop data i pats).havok_version_str = i.havok_version_str := by
  intro pats
  induction pats with
  | nil => intro i; exact ⟨rfl, rfl, rfl⟩
  | cons p rest ih =>
    intro i
    unfold scanVersionLoop
    repeat first | split | exact ih i | exact ⟨rfl, rfl, rfl⟩

lemma probeVersion_pres (data : List Nat) :
    ∀ (offs : List Nat) (i : HKXInfo),
      (probeVersion data i offs).valid = i.valid ∧
      (probeVersion data i offs).endianness = i.endianness := by
  intro offs
  induction offs with
  | nil => intro i; exact ⟨rfl, rfl⟩
  | cons o rest ih =>
    intro i
    unfold probeVersion
    repeat first | split | exact ih i | exact ⟨rfl, rfl⟩

lemma resolveVersion_pres (data : List Nat) (i : HKXInfo) :
    (resolveVersion data i).valid = i.valid ∧
    (resolveVersion data i).endianness = i.endianness := by
  unfold resolveVersion
  split
  · exact ⟨rfl, rfl⟩
  · simp only []
    split
    · exact probeVersion_pres data [0x10, 0x14, 0x28, 0x2C] i
    · exact probeVersion_pres data [0x10, 0x14, 0x28, 0x2C] i

lemma sectionLoop_pres (data : List Nat) :
    ∀ (offs : List Nat) (i : HKXInfo),
      (sectionLoop data i offs).valid = i.valid ∧
      (sectionLoop data i offs).endianness = i.endianness ∧
      (sectionLoop data i offs).havok_version_str = i.havok_version_str := by
  intro offs
  induction offs with
  | nil => intro i; exact ⟨rfl, rfl, rfl⟩
  | cons o rest ih =>
    intro i
    unfold sectionLoop
    repeat first | split | exact ih i | exact ⟨rfl, rfl, rfl⟩

lemma altVersionSet_valid (data : List Nat) (i : HKXInfo) :
    (altVersionSet data i).valid = i.valid := by
  unfold altVersionSet
  repeat first | split | dsimp only | rfl

lemma scanStep_pos (data : List Nat) (acc : HKXInfo) (s : List Nat)
    (h : containsL s data = true) :
    scanStep data acc s = classUpdate acc (decodeAsciiReplace s) := by
  unfold scanStep
  rw [if_pos h]

lemma scanStep_len (data : List Nat) (i : HKXInfo) (s : List Nat) :
    i.detected_classes.length ≤ (scanStep data i s).detected_classes.length := by
  unfold scanStep
  split
  · rw [classUpdate_detected]
    simp
  · exact le_refl _

lemma scanStep_eq_or (data : List Nat) (i : HKXInfo) (s : List Nat) :
    scanStep data i s = i ∨
      (scanStep data i s).detected_classes.length = i.detected_classes.length + 1 := by
  unfold scanStep
  split
  · right
    rw [classUpdate_detected]
    simp
  · left
    rfl

lemma scanFold_len (data : List Nat) :
    ∀ (sigs : List (List Nat)) (i : HKXInfo),
      i.detected_classes.length ≤
        (List.foldl (scanStep data) i sigs).detected_classes.length := by
  intro sigs
  induction sigs with
  | nil => intro i; exact le_refl _
  | cons s rest ih =>
    intro i
    rw [List.foldl_cons]
    exact le_trans (scanStep_len data i s) (ih (scanStep data i s))

lemma scanFold_empty (data : List Nat) :
    ∀ (sigs : List (List Nat)) (i : HKXInfo),
      (List.foldl (scanStep data) i sigs).detected_classes = [] →
        List.foldl (scanStep data) i sigs = i := by
  intro sigs
  induction sigs with
  | nil => intro i _; rfl
  | cons s rest ih =>
    intro i h
    rw [List.foldl_cons] at h ⊢
    rcases scanStep_eq_or data i s with he | hl
    · rw [he] at h ⊢
      exact ih i h
    · exfalso
      have h1 := scanFold_len data rest (scanStep data i s)
      rw [h, hl] at h1
      simp at h1

lemma scanClasses_empty (data : List Nat) (i : HKXInfo)
    (h : (scanClasses data i).detected_classes = []) : scanClasses data i = i :=
  scanFold_empty data ER_CLASSNAME_SIGNATURES i h

lemma altFallback_of_valid (data : List Nat) (i : HKXInfo) (h : i.valid = true) :
    altFallback data i = i := by
  simp [altFallback, h]

lemma altFinal_of_valid (i : HKXInfo) (h : i.valid = true) : altFinal i = i := by
  simp [altFinal, h]

lemma parseAlt_cases (data : List Nat) :
    (parseAlt data initInfo).valid = true ∨ parseAlt data initInfo = noHeaderInfo := by
  unfold parseAlt
  split
  · left
    rw [hdr_valid (scanClasses_hdr data (altVersionSet data { initInfo with valid := true })),
      altVersionSet_valid]
  · by_cases hmo : magicAtOffset data = true
    · left
      rw [if_pos hmo]
      rw [altFallback_of_valid data _ rfl, altFinal_of_valid _ rfl]
    · rw [if_neg hmo]
      by_cases hd : (scanClasses data initInfo).detected_classes = []
      · right
        have he := scanClasses_empty data initInfo hd
        have hfb : altFallback data initInfo = initInfo := by
          unfold altFallback
          rw [if_pos (by decide)]
          dsimp only
          rw [if_neg (not_not_intro hd)]
          exact he
        rw [hfb]
        unfold altFinal
        rw [if_pos (by decide)]
        rfl
      · left
        have hfb : (altFallback data initInfo).valid = true := by
          unfold altFallback
          rw [if_pos (by decide)]
          dsimp only
          rw [if_pos hd]
        rw [altFinal_of_valid _ hfb, hfb]

lemma parseData_small (data : List Nat) (h : data.length < 64) :
    parseData data =
      { initInfo with error := some ("File too small to be a valid HKX".toList) } := by
  unfold parseData
  rw [if_pos h]

lemma parseData_magic (data : List Nat) (h64 : ¬ data.length < 64)
    (hm : data.take 8 = HKX_MAGIC_LE) : parseData data = standardTail data := by
  unfold parseData
  rw [if_neg h64, if_neg (not_not_intro hm)]

lemma parseData_alt (data : List Nat) (h64 : ¬ data.length < 64)
    (hm : data.take 8 ≠ HKX_MAGIC_LE) : parseData data = parseAlt data initInfo := by
  unfold parseData
  rw [if_neg h64, if_pos hm]

lemma standardTail_valid (data : List Nat) : (standardTail data).valid = true := by
  unfold standardTail scanVersionString
  rw [hdr_valid (scanClasses_hdr data _),
    (scanVersionLoop_pres data VERSION_PATTERNS _).1,
    (sectionLoop_pres data [0x14, 0x18] _).1,
    (resolveVersion_pres data _).1]
  rfl

lemma standardTail_endianness (data : List Nat) :
    (standardTail data).endianness = (standardHeaderInfo data).endianness := by
  unfold standardTail scanVersionString
  rw [hdr_endianness (scanClasses_hdr data _),
    (scanVersionLoop_pres data VERSION_PATTERNS _).2.1,
    (sectionLoop_pres data [0x14, 0x18] _).2.1,
    (resolveVersion_pres data _).2]

lemma standardTail_str (data : List Nat) :
    (standardTail data).havok_version_str =
      (resolveVersion data (standardHeaderInfo data)).havok_version_str := by
  unfold standardTail scanVersionString
  rw [hdr_str (scanClasses_hdr data _),
    (scanVersionLoop_pres data VERSION_PATTERNS _).2.2,
    (sectionLoop_pres data [0x14, 0x18] _).2.2]

lemma lookup_ne_zero (v : Nat) (s : List Char) (h : lookupVersion v = some s) :
    v ≠ 0 := by
  intro hv
  rw [hv] at h
  have h0 : lookupVersion 0 = none := rfl
  rw [h0] at h
  exact Option.noConfusion h

lemma resolveVersion_str (data : List Nat) (h64 : 64 ≤ data.length) (i : HKXInfo)
    (hraw : i.havok_version_raw = 0) :
    (resolveVersion data i).havok_version_str = versionLabelSpec data := by
  have h1 : (0x10 : Nat) + 4 ≤ data.length := by omega
  have h2 : (0x14 : Nat) + 4 ≤ data.length := by omega
  have h3 : (0x28 : Nat) + 4 ≤ data.length := by omega
  have h4 : (0x2C : Nat) + 4 ≤ data.length := by omega
  unfold resolveVersion versionLabelSpec
  cases hv : lookupVersion (readU32 data 0x0C) with
  | some s => rfl
  | none =>
    simp only [probeVersion, if_pos h1, if_pos h2, if_pos h3, if_pos h4,
      List.filterMap_cons, List.filterMap_nil]
    cases hv1 : lookupVersion (readU32 data 0x10) with
    | some s1 =>
      simp only [hv1]
      rw [if_neg (lookup_ne_zero _ _ hv1)]
      rfl
    | none =>
      simp only [hv1]
      cases hv2 : lookupVersion (readU32 data 0x14) with
      | some s2 =>
        simp only [hv2]
        rw [if_neg (lookup_ne_zero _ _ hv2)]
        rfl
      | none =>
        simp only [hv2]
        cases hv3 : lookupVersion (readU32 data 0x28) with
        | some s3 =>
          simp only [hv3]
          rw [if_neg (lookup_ne_zero _ _ hv3)]
          rfl
        | none =>
          simp only [hv3]
          cases hv4 : lookupVersion (readU32 data 0x2C) with
          | some s4 =>
            simp only [hv4]
            rw [if_neg (lookup_ne_zero _ _ hv4)]
            rfl
          | none =>
            simp only [hv4]
            rw [if_pos hraw]
            rfl

lemma classUpdate_comp_animContainer (i : HKXInfo) :
    (classUpdate i (decodeAsciiReplace animContainerSig)).compression_type =
      i.compression_type := by
  unfold classUpdate
  rw [if_neg (by decide), if_neg (by decide), if_neg (by decide)]

lemma classUpdate_comp_spline (i : HKXInfo) :
    (classUpdate i (decodeAsciiReplace splineSig)).compression_type =
      "spline".toList := by
  unfold classUpdate
  rw [if_pos (by decide)]
  dsimp only
  rw [if_pos (by decide)]

lemma classUpdate_comp_inter (i : HKXInfo) :
    (classUpdate i (decodeAsciiReplace interleavedSig)).compression_type =
      "interleaved".toList := by
  unfold classUpdate
  rw [if_pos (by decide)]
  dsimp only
  rw [if_neg (by decide), if_pos (by decide)]

lemma classUpdate_comp_binding (i : HKXInfo) :
    (classUpdate i (decodeAsciiReplace bindingSig)).compression_type =
      i.compression_type := by
  unfold classUpdate
  rw [if_pos (by decide)]
  dsimp only
  rw [if_neg (by decide), if_neg (by decide)]

lemma classUpdate_comp_skeleton (i : HKXInfo) :
    (classUpdate i (decodeAsciiReplace skeletonSig)).compression_type =
      i.compression_type := by
  unfold classUpdate
  rw [if_neg (by decide), if_pos (by decide)]

lemma classUpdate_comp_skeletonMapper (i : HKXInfo) :
    (classUpdate i (decodeAsciiReplace skeletonMapperSig)).compression_type =
      i.compression_type := by
  unfold classUpdate
  rw [if_neg (by decide), if_neg (by decide), if_neg (by decide)]

lemma classUpdate_comp_rootLevel (i : HKXInfo) :
    (classUpdate i (decodeAsciiReplace rootLevelSig)).compression_type =
      i.compression_type := by
  unfold classUpdate
  rw [if_neg (by decide), if_neg (by decide), if_neg (by decide)]

lemma scanStep_comp_animContainer (data : List Nat) (acc : HKXInfo) :
    (scanStep data acc animContainerSig).compression_type = acc.compression_type := by
  unfold scanStep
  split
  · exact classUpdate_comp_animContainer acc
  · rfl

lemma scanStep_comp_binding (data : List Nat) (acc : HKXInfo) :
    (scanStep data acc bindingSig).compression_type = acc.compression_type := by
  unfold scanStep
  split
  · exact classUpdate_comp_binding acc
  · rfl

lemma scanStep_comp_skeleton (data : List Nat) (acc : HKXInfo) :
    (scanStep data acc skeletonSig).compression_type = acc.compression_type := by
  unfold scanStep
  split
  · exact classUpdate_comp_skeleton acc
  · rfl

lemma scanStep_comp_skeletonMapper (data : List Nat) (acc : HKXInfo) :
    (scanStep data acc skeletonMapperSig).compression_type = acc.compression_type := by
  unfold scanStep
  split
  · exact classUpdate_comp_skeletonMapper acc
  · rfl

lemma scanStep_comp_rootLevel (data : List Nat) (acc : HKXInfo) :
    (scanStep data acc rootLevelSig).compression_type = acc.compression_type := by
  unfold scanStep
  split
  · exact classUpdate_comp_rootLevel acc
  · rfl

lemma scan_both (data : List Nat) (i : HKXInfo)
    (hi : containsL interleavedSig data = true) :
    (scanClasses data i).compression_type = "interleaved".toList := by
  unfold scanClasses ER_CLASSNAME_SIGNATURES
  simp only [List.foldl_cons, List.foldl_nil]
  rw [scanStep_comp_rootLevel, scanStep_comp_skeletonMapper, scanStep_comp_skeleton,
    scanStep_comp_binding, scanStep_pos data _ interleavedSig hi]
  exact classUpdate_comp_inter _

lemma sumValues_nil : sumValues [] = 0 := rfl

lemma sumValues_cons (p : List Char × Nat) (m : List (List Char × Nat)) :
    sumValues (p :: m) = p.2 + sumValues m := by
  simp [sumValues]

lemma sumValues_bump (m : List (List Char × Nat)) (k : List Char) :
    sumValues (bump m k) = sumValues m + 1 := by
  induction m with
  | nil => rfl
  | cons p rest ih =>
    unfold bump
    split
    · rw [sumValues_cons, sumValues_cons]
      omega
    · rw [sumValues_cons, sumValues_cons, ih]
      omega

lemma compressionFold (rs : List HKXInfo) :
    ∀ m, sumValues (List.foldl (fun m r => bump m r.compression_type) m rs) =
      sumValues m + rs.length := by
  induction rs with
  | nil => intro m; simp
  | cons r rest ih =>
    intro m
    rw [List.foldl_cons, ih, sumValues_bump]
    simp
    omega

lemma validCount_nil : validCount [] = 0 := rfl

lemma validCount_cons (r : HKXInfo) (rs : List HKXInfo) :
    validCount (r :: rs) = (if r.valid then 1 else 0) + validCount rs := by
  unfold validCount
  rw [List.filter_cons]
  split
  · simp
    omega
  · simp

lemma invalidCount_cons (r : HKXInfo) (rs : List HKXInfo) :
    invalidCount (r :: rs) = (if r.valid then 0 else 1) + invalidCount rs := by
  unfold invalidCount
  rw [List.filter_cons]
  by_cases hv : r.valid
  · rw [if_neg (by simp [hv]), if_pos hv]
    simp
  · rw [if_pos (by simp [hv]), if_neg hv]
    simp
    omega

lemma versionFold (rs : List HKXInfo) :
    ∀ m, sumValues (List.foldl
        (fun m r => if r.valid then bump m r.havok_version_str else m) m rs) =
      sumValues m + validCount rs := by
  induction rs with
  | nil => intro m; simp [validCount_nil]
  | cons r rest ih =>
    intro m
    rw [List.foldl_cons, validCount_cons]
    by_cases hv : r.valid
    · rw [if_pos hv] at *
      rw [ih, sumValues_bump, if_pos hv]
      omega
    · rw [if_neg hv, ih, if_neg hv]
      omega

lemma count_split (rs : List HKXInfo) : validCount rs + invalidCount rs = rs.length := by
  induction rs with
  | nil => rfl
  | cons r rest ih =>
    rw [validCount_cons, invalidCount_cons, List.length_cons]
    by_cases hv : r.valid
    · rw [if_pos hv, if_pos hv]
      omega
    · rw [if_neg hv, if_neg hv]
      omega

lemma okTail_ne_nil (l : List (List Char)) :
    (if l = [] then [okIssue] else l) ≠ [] := by
  split
  · simp
  · next h => exact h

lemma parse_magic_valid (data : List Nat) (h64 : 64 ≤ data.length)
    (hm : data.take 8 = HKX_MAGIC_LE) : (parseData data).valid = true := by
  rw [parseData_magic data (by omega) hm]
  exact standardTail_valid data

lemma detected_imp_valid (data : List Nat)
    (h : (parseData data).detected_classes ≠ []) : (parseData data).valid = true := by
  by_cases h64 : data.length < 64
  · rw [parseData_small data h64] at h
    exact absurd rfl h
  · by_cases hm : data.take 8 = HKX_MAGIC_LE
    · rw [parseData_magic data h64 hm]
      exact standardTail_valid data
    · rw [parseData_alt data h64 hm] at h ⊢
      rcases parseAlt_cases data with hv | he
      · exact hv
      · rw [he] at h
        exact absurd rfl h

/-- C1 (counterexample): the claim as stated is false — the 8-byte buffer
that consists of the magic constant alone has a magic-equal prefix but is
rejected as too small, so the record is not valid. -/
theorem claim1_counterexample :
    List.take 8 HKX_MAGIC_LE = HKX_MAGIC_LE ∧ (parseData HKX_MAGIC_LE).valid = false := by
  decide

/-- C1 (amended): every buffer of at least 64 bytes whose first 8 bytes
equal the magic constant yields a valid record, independent of the
remaining byte content. -/
theorem claim1_magic_valid (data : List Nat) (h64 : 64 ≤ data.length)
    (hm : data.take 8 = HKX_MAGIC_LE) : (parseData data).valid = true :=
  parse_magic_valid data h64 hm

/-- C1 (witness): the amended theorem applied to an 80-byte magic-prefixed
buffer of zeros. -/
theorem claim1_witness :
    64 ≤ magicBuf80.length ∧ magicBuf80.take 8 = HKX_MAGIC_LE ∧
      (parseData magicBuf80).valid = true :=
  ⟨by decide, by decide, claim1_magic_valid magicBuf80 (by decide) (by decide)⟩

/-- C2 (counterexample): the claim as stated is false — no input buffer
produces a record with non-empty `detected_classes` and `valid = false`,
because signature-only detection itself marks the record valid. -/
theorem claim2_counterexample :
    ¬ ∃ data : List Nat,
      (parseData data).detected_classes ≠ [] ∧ (parseData data).valid = false := by
  rintro ⟨data, h1, h2⟩
  rw [detected_imp_valid data h1] at h2
  exact Bool.noConfusion h2

/-- C2 (amended): for every input buffer, a non-empty `detected_classes`
list implies `valid = true`. -/
theorem claim2_detected_imp_valid (data : List Nat)
    (h : (parseData data).detected_classes ≠ []) : (parseData data).valid = true :=
  detected_imp_valid data h

/-- C2 (witness): the amended theorem applied to a headerless buffer that
contains a skeleton signature. -/
theorem claim2_witness :
    (parseData headlessBuf).detected_classes ≠ [] ∧ (parseData headlessBuf).valid = true :=
  ⟨by decide, claim2_detected_imp_valid headlessBuf (by decide)⟩

/-- C3: every buffer shorter than 64 bytes yields an invalid record with
the too-small error and every other field at its constructor default,
regardless of content. -/
theorem claim3_too_small (data : List Nat) (h : data.length < 64) :
    (parseData data).valid = false ∧
    (parseData data).error = some ("File too small to be a valid HKX".toList) ∧
    (parseData data).endianness = "unknown".toList ∧
    (parseData data).havok_version_raw = 0 ∧
    (parseData data).havok_version_str = "unknown".toList ∧
    (parseData data).num_sections = 0 ∧
    (parseData data).detected_classes = [] ∧
    (parseData data).has_animation = false ∧
    (parseData data).has_skeleton = false ∧
    (parseData data).has_binding = false ∧
    (parseData data).compression_type = "unknown".toList ∧
    (parseData data).content_version_string = [] := by
  rw [parseData_small data h]
  exact ⟨rfl, rfl, rfl, rfl, rfl, rfl, rfl, rfl, rfl, rfl, rfl, rfl⟩

/-- C3 (witness): the theorem applied to the empty buffer. -/
theorem claim3_witness :
    ([] : List Nat).length < 64 ∧ (parseData []).valid = false ∧
      (parseData []).error = some ("File too small to be a valid HKX".toList) :=
  ⟨by decide, (claim3_too_small [] (by decide)).1, (claim3_too_small [] (by decide)).2.1⟩

/-- C4: for every magic-prefixed buffer of at least 64 bytes the record is
valid and the reported endianness is `big` exactly when the byte at offset
0x11 is zero, `little` otherwise. -/
theorem claim4_endianness (data : List Nat) (h64 : 64 ≤ data.length)
    (hm : data.take 8 = HKX_MAGIC_LE) :
    (parseData data).valid = true ∧
    (parseData data).endianness =
      (if getByte data 0x11 = 0 then "big".toList else "little".toList) := by
  constructor
  · exact parse_magic_valid data h64 hm
  · rw [parseData_magic data (by omega) hm, standardTail_endianness]
    unfold standardHeaderInfo
    rw [if_pos (by omega : (0x11 : Nat) < data.length)]

/-- C4 (witness): the theorem applied to an 80-byte magic-prefixed buffer
whose byte at offset 0x11 is zero: valid, endianness `big`. -/
theorem claim4_witness :
    64 ≤ magicBuf80.length ∧ magicBuf80.take 8 = HKX_MAGIC_LE ∧
    getByte magicBuf80 0x11 = 0 ∧ (parseData magicBuf80).valid = true ∧
    (parseData magicBuf80).endianness = "big".toList := by
  refine ⟨by decide, by decide, by decide,
    (claim4_endianness magicBuf80 (by decide) (by decide)).1, ?_⟩
  rw [(claim4_endianness magicBuf80 (by decide) (by decide)).2]
  decide

/-- C5: every buffer of at least 64 bytes that does not start with the
magic but starts with `hk_` or `HK_` is marked valid, and whenever the
NUL-terminated prefix of its first 64 bytes exists and its ASCII decoding
contains "2018", the resolved version label is the hk2018 family string. -/
theorem claim5_tagfile (data : List Nat) (h64 : 64 ≤ data.length)
    (hm : data.take 8 ≠ HKX_MAGIC_LE)
    (hhk : data.take 3 = HK_LOWER ∨ data.take 3 = HK_UPPER) :
    (parseData data).valid = true ∧
    (∀ e, findByteFrom data 0 0 64 = some e → 0 < e →
      containsL ("2018".toList) (decodeAsciiReplace (data.take e)) = true →
      (parseData data).havok_version_str = "hk2018 (Elden Ring / DS3)".toList) := by
  rw [parseData_alt data (by omega) hm]
  unfold parseAlt
  rw [if_pos hhk]
  constructor
  · rw [hdr_valid (scanClasses_hdr data _), altVersionSet_valid]
  · intro e he he0 h2018
    rw [hdr_str (scanClasses_hdr data _)]
    unfold altVersionSet
    rw [he]
    dsimp only
    rw [if_pos he0, if_pos h2018]

/-- C5 (witness): the theorem applied to a 64-byte tagfile buffer whose
NUL-terminated prefix is `hk_2018.1.0-r1`. -/
theorem claim5_witness :
    64 ≤ hkBuf.length ∧ hkBuf.take 8 ≠ HKX_MAGIC_LE ∧ hkBuf.take 3 = HK_LOWER ∧
    findByteFrom hkBuf 0 0 64 = some 14 ∧
    (parseData hkBuf).valid = true ∧
    (parseData hkBuf).havok_version_str = "hk2018 (Elden Ring / DS3)".toList := by
  refine ⟨by decide, by decide, by decide, by decide, ?_, ?_⟩
  · exact (claim5_tagfile hkBuf (by decide) (by decide) (Or.inl (by decide))).1
  · exact (claim5_tagfile hkBuf (by decide) (by decide) (Or.inl (by decide))).2
      14 (by decide) (by decide) (by decide)

/-- C6 (counterexample): the claim as stated is false — the 63-byte
concatenation of the spline and interleaved signatures contains both
signatures, yet the analysis rejects it as too small and the compression
classification stays `unknown`, not `interleaved`. -/
theorem claim6_counterexample :
    containsL splineSig bothSigs63 = true ∧
    containsL interleavedSig bothSigs63 = true ∧
    (parseData bothSigs63).compression_type ≠ "interleaved".toList := by
  decide

/-- C6 (amended): for every buffer of at least 64 bytes containing both
animation signatures, the compression classification is `interleaved`
(the later signature in the fixed scan order), regardless of where the two
signatures occur in the buffer — provided the class scan is reached, i.e.
the buffer starts with the magic, or starts with the `hk_`/`HK_` marker,
or does not contain the magic at any probed 4-aligned offset (the
packfile-offset branch skips the class scan entirely). -/
theorem claim6_amended (data : List Nat) (h64 : 64 ≤ data.length)
    (_hs : containsL splineSig data = true) (hi : containsL interleavedSig data = true)
    (hreach : data.take 8 = HKX_MAGIC_LE ∨ data.take 3 = HK_LOWER ∨
      data.take 3 = HK_UPPER ∨ magicAtOffset data = false) :
    (parseData data).compression_type = "interleaved".toList := by
  by_cases hm : data.take 8 = HKX_MAGIC_LE
  · rw [parseData_magic data (by omega) hm]
    unfold standardTail
    exact scan_both data _ hi
  · rw [parseData_alt data (by omega) hm]
    unfold parseAlt
    by_cases hhk : data.take 3 = HK_LOWER ∨ data.take 3 = HK_UPPER
    · rw [if_pos hhk]
      exact scan_both data _ hi
    · rw [if_neg hhk]
      have hmo : magicAtOffset data = false := by
        rcases hreach with h | h | h | h
        · exact absurd h hm
        · exact absurd (Or.inl h) hhk
        · exact absurd (Or.inr h) hhk
        · exact h
      rw [if_neg (by simp [hmo])]
      have hcomp := scan_both data initInfo hi
      have hd : (scanClasses data initInfo).detected_classes ≠ [] := by
        intro h0
        rw [scanClasses_empty data initInfo h0] at hcomp
        exact absurd hcomp (by decide)
      have hfb : altFallback data initInfo =
          { scanClasses data initInfo with
              valid := true
              havok_version_str := "unknown (headerless, classes detected)".toList } := by
        unfold altFallback
        rw [if_pos (by decide)]
        dsimp only
        rw [if_pos hd]
      rw [hfb, altFinal_of_valid _ rfl]
      exact hcomp

/-- C6 (witness): the amended theorem applied to a 71-byte magic-prefixed
buffer in which the spline signature occurs before the interleaved one. -/
theorem claim6_witness :
    64 ≤ bothSigsMagic.length ∧ containsL splineSig bothSigsMagic = true ∧
    containsL interleavedSig bothSigsMagic = true ∧
    bothSigsMagic.take 8 = HKX_MAGIC_LE ∧
    (parseData bothSigsMagic).compression_type = "interleaved".toList := by
  refine ⟨by decide, by decide, by decide, by decide, ?_⟩
  exact claim6_amended bothSigsMagic (by decide) (by decide) (by decide)
    (Or.inl (by decide))

/-- C7: on the standard-header path the resolved version label equals the
spec's description of the resolution order — the offset-0x0C candidate if
known, else the first known key among offsets 0x10, 0x14, 0x28, 0x2C, else
the `unknown (0x…)` label formatted from the raw offset-0x0C value — and
extraction always succeeds. -/
theorem claim7_version_resolution (data : List Nat) (h64 : 64 ≤ data.length)
    (hm : data.take 8 = HKX_MAGIC_LE) :
    (parseData data).havok_version_str = versionLabelSpec data := by
  rw [parseData_magic data (by omega) hm, standardTail_str]
  exact resolveVersion_str data h64 (standardHeaderInfo data) rfl

/-- C7 (witness): the theorem applied to the all-zero magic-prefixed
buffer, where no candidate resolves and the label is `unknown (0x00000000)`. -/
theorem claim7_witness :
    64 ≤ magicBuf80.length ∧ magicBuf80.take 8 = HKX_MAGIC_LE ∧
    (parseData magicBuf80).havok_version_str = versionLabelSpec magicBuf80 ∧
    versionLabelSpec magicBuf80 = "unknown (0x00000000)".toList :=
  ⟨by decide, by decide,
    claim7_version_resolution magicBuf80 (by decide) (by decide), by decide⟩

/-- C8: the compatibility check returns a non-empty list for every record;
an invalid record yields exactly the single invalid-file issue, and a
valid record firing none of the version, compression and endianness rules
yields exactly the single no-obvious-issues entry. -/
theorem claim8_compat (info : HKXInfo) :
    check_skyrim_compatibility info ≠ [] ∧
    (info.valid = false → check_skyrim_compatibility info = [invalidIssue]) ∧
    (info.valid = true →
      containsL ("2018".toList) info.havok_version_str = false →
      containsL ("Elden Ring".toList) info.havok_version_str = false →
      info.compression_type ≠ "spline".toList →
      info.endianness ≠ "big".toList →
      check_skyrim_compatibility info = [okIssue]) := by
  refine ⟨?_, ?_, ?_⟩
  · unfold check_skyrim_compatibility
    by_cases hv : info.valid = true
    · rw [hv, if_neg (show ¬((!true) = true) from by decide)]
      dsimp only
      exact okTail_ne_nil _
    · simp only [Bool.not_eq_true] at hv
      rw [hv, if_pos (show (!false) = true from by decide)]
      simp
  · intro hv
    unfold check_skyrim_compatibility
    rw [hv, if_pos (show (!false) = true from by decide)]
  · intro hv h18 hER hcomp hend
    unfold check_skyrim_compatibility
    rw [hv, if_neg (show ¬((!true) = true) from by decide)]
    dsimp only
    rw [h18, hER,
      if_neg (show ¬((false || false) = true) from by decide),
      if_neg hcomp, if_neg hend, if_pos rfl]

/-- C8 (witness): the theorem's invalid-record branch applied to the
default record. -/
theorem claim8_witness : check_skyrim_compatibility initInfo = [invalidIssue] :=
  (claim8_compat initInfo).2.1 rfl

/-- C9: for a batch of records, the valid count equals the total minus the
invalid count, the version-label frequency table's values sum to the valid
count, and the compression frequency table's values sum to the total. -/
theorem claim9_summary (rs : List HKXInfo) :
    validCount rs = rs.length - invalidCount rs ∧
    sumValues (versionCounts rs) = validCount rs ∧
    sumValues (compressionCounts rs) = rs.length := by
  refine ⟨?_, ?_, ?_⟩
  · have h := count_split rs
    omega
  · unfold versionCounts
    rw [versionFold rs []]
    simp [sumValues_nil]
  · unfold compressionCounts
    rw [compressionFold rs []]
    simp [sumValues_nil]

/-- C10: whenever an analyzed file's record is invalid, its error is set
and every classification field holds its constructor default. -/
theorem claim10_invalid_defaults (input : Except (List Char) (List Nat))
    (h : (analyzeFile input).valid = false) :
    (analyzeFile input).error ≠ none ∧
    (analyzeFile input).detected_classes = [] ∧
    (analyzeFile input).has_animation = false ∧
    (analyzeFile input).has_skeleton = false ∧
    (analyzeFile input).has_binding = false ∧
    (analyzeFile input).compression_type = "unknown".toList ∧
    (analyzeFile input).endianness = "unknown".toList ∧
    (analyzeFile input).num_sections = 0 ∧
    (analyzeFile input).havok_version_raw = 0 ∧
    (analyzeFile input).content_version_string = [] := by
  cases input with
  | error e =>
    exact ⟨fun hc => Option.noConfusion hc, rfl, rfl, rfl, rfl, rfl, rfl, rfl, rfl, rfl⟩
  | ok data =>
    by_cases h64 : data.length < 64
    · have hp : analyzeFile (Except.ok data) =
          { initInfo with error := some ("File too small to be a valid HKX".toList) } :=
        parseData_small data h64
      rw [hp]
      exact ⟨fun hc => Option.noConfusion hc, rfl, rfl, rfl, rfl, rfl, rfl, rfl, rfl, rfl⟩
    · by_cases hm : data.take 8 = HKX_MAGIC_LE
      · exfalso
        have hvalid : (analyzeFile (Except.ok data)).valid = true :=
          parse_magic_valid data (by omega) hm
        rw [hvalid] at h
        exact Bool.noConfusion h
      · have hp : analyzeFile (Except.ok data) = parseAlt data initInfo :=
          parseData_alt data h64 hm
        rcases parseAlt_cases data with hv | he
        · exfalso
          have hvalid : (analyzeFile (Except.ok data)).valid = true := by
            rw [hp]
            exact hv
          rw [hvalid] at h
          exact Bool.noConfusion h
        · have hfin : analyzeFile (Except.ok data) = noHeaderInfo := by
            rw [hp]
            exact he
          rw [hfin]
          exact ⟨fun hc => Option.noConfusion hc, rfl, rfl, rfl, rfl, rfl, rfl, rfl, rfl, rfl⟩

/-- C10 (witness): the theorem applied to a readable empty file. -/
theorem claim10_witness :
    (analyzeFile (Except.ok ([] : List Nat))).valid = false ∧
    (analyzeFile (Except.ok ([] : List Nat))).error ≠ none ∧
    (analyzeFile (Except.ok ([] : List Nat))).detected_classes = [] :=
  ⟨by decide, (claim10_invalid_defaults (Except.ok []) (by decide)).1,
    (claim10_invalid_defaults (Except.ok []) (by decide)).2.1⟩

end HKX
